import Mathlib

/-!
Shallow embedding of the notte DOM/accessibility node-graph model and the
selector-resolution pipeline, together with proofs about the embedded
operations.

Sources embedded:
- `src/notte/browser/dom_tree.py` — `NodeSelectors`, `DomAttributes` (the
  state fields read by the embedded operations), `ComputedDomAttributes`,
  `DomNode` and its tree algorithms (`subtree_ids` from `__post_init__`,
  `inner_text`, `find`, `flatten`, `subtree_filter`, `subtree_without`,
  `to_interaction_node`), `InteractionDomNode`, `ResolvedLocator`.
- `src/notte/pipe/resolution.py` — `ActionNodeResolutionPipe.forward`,
  `fill_node_selectors`, `get_valid_locator`, `compute_attributes`.

The modules `notte/browser/node_type.py` (NodeType/NodeRole/NodeCategory),
`notte/errors/*` (error classes) and
`notte/pipe/preprocessing/a11y/conflict_resolution.py` (the driver-level
fallback lookups) are not part of the analysed sources; the definitions that
stand in for them are marked `Modelled from the spec:` below.  The live
browser page (frames, match counting, state probes) is an external
collaborator and is modelled as a record of pure probe functions.
-/

namespace Notte

/-- Modelled from the spec: `notte/browser/node_type.py` is not among the
analysed sources.  `NodeType` is the node-kind enum `{TEXT, INTERACTION,
OTHER}` used by `DomNode.type`. -/
inductive NodeType where
  | text
  | interaction
  | other
deriving DecidableEq, Repr

/-- Modelled from the spec: role categories (textual, interactive, image,
other) from the missing `notte/browser/node_type.py`. -/
inductive NodeCategory where
  | text
  | interaction
  | image
  | other
deriving DecidableEq, Repr

/-- Modelled from the spec: a known role is an enum member carrying its
string value and its category (the spec's `Known(role)` with an explicit
category accessor). -/
structure KnownRole where
  value : String
  category : NodeCategory
deriving DecidableEq, Repr

/-- Modelled from the spec: the role field is the tagged variant
`Known(enum) | Unknown(string)`.  In the Python sources an unknown role is
represented by the node's `role` field still being a plain `str` after
`NodeRole.from_value`; `isinstance(node.role, str)` checks correspond to the
`unknown` constructor here. -/
inductive NodeRole where
  | known (r : KnownRole)
  | unknown (value : String)
deriving DecidableEq, Repr

/-- `DomAttributes` (dom_tree.py).  The Python dataclass has ~70 optional
fields; the embedded record keeps the three state fields that the verified
operations (`inner_text`) actually read.  Absent input keys map to `none`,
never to a default `false`. -/
structure DomAttributes where
  hidden : Option Bool
  visible : Option Bool
  enabled : Option Bool
deriving DecidableEq, Repr

/-- `NodeSelectors` (dom_tree.py). -/
structure NodeSelectors where
  css_selector : String
  xpath_selector : String
  notte_selector : String
  in_iframe : Bool
  in_shadow_root : Bool
  iframe_parent_css_selectors : List String
  playwright_selector : Option String
deriving DecidableEq, Repr

/-- `NodeSelectors.selectors` (dom_tree.py): the playwright selector when
present, then the css selector, then the xpath selector. -/
def NodeSelectors.selectors (s : NodeSelectors) : List String :=
  (match s.playwright_selector with
   | some p => [p]
   | none => []) ++ [s.css_selector, s.xpath_selector]

/-- `ComputedDomAttributes` (dom_tree.py).  `selectors` is the only field
mutated after construction (via `set_selectors`); the embedding models that
mutation by rebuilding the node with `DomNode.set_selectors` below. -/
structure ComputedDomAttributes where
  in_viewport : Bool
  is_interactive : Bool
  is_top_element : Bool
  is_editable : Bool
  shadow_root : Bool
  highlight_index : Option Int
  selectors : Option NodeSelectors
deriving DecidableEq, Repr

/-- A `ComputedDomAttributes` with every flag at its dataclass default. -/
def ComputedDomAttributes.default : ComputedDomAttributes :=
  ⟨false, false, false, false, false, none, none⟩

/-- `DomNode` (dom_tree.py): id, type, role, text, ordered children,
optional attributes, computed attributes.  The `parent` back-reference and
the derived `subtree_ids` field are not stored: `subtree_ids` is recomputed
by the function of the same name below, exactly as `__post_init__` fills
it. -/
inductive DomNode where
  | mk (id : Option String) (type : NodeType) (role : NodeRole) (text : String)
      (children : List DomNode) (attributes : Option DomAttributes)
      (computed_attributes : ComputedDomAttributes)
deriving Repr

def DomNode.id : DomNode → Option String
  | .mk i _ _ _ _ _ _ => i

def DomNode.type : DomNode → NodeType
  | .mk _ t _ _ _ _ _ => t

def DomNode.role : DomNode → NodeRole
  | .mk _ _ r _ _ _ _ => r

def DomNode.text : DomNode → String
  | .mk _ _ _ x _ _ _ => x

def DomNode.children : DomNode → List DomNode
  | .mk _ _ _ _ cs _ _ => cs

def DomNode.attributes : DomNode → Option DomAttributes
  | .mk _ _ _ _ _ a _ => a

def DomNode.computed_attributes : DomNode → ComputedDomAttributes
  | .mk _ _ _ _ _ _ c => c

/-- `ComputedDomAttributes.set_selectors` lifted to the node: rebuild the
node with `computed_attributes.selectors` replaced, everything else kept. -/
def DomNode.set_selectors (n : DomNode) (s : NodeSelectors) : DomNode :=
  match n with
  | .mk i t r x cs a c =>
    .mk i t r x cs a ⟨c.in_viewport, c.is_interactive, c.is_top_element,
      c.is_editable, c.shadow_root, c.highlight_index, some s⟩

mutual
/-- `DomNode.__post_init__` (dom_tree.py): `subtree_ids` is the node's own
id (when present) followed by the concatenation of the children's
`subtree_ids`, in child order. -/
def subtree_ids : DomNode → List String
  | .mk i _ _ _ cs _ _ => i.toList ++ subtree_ids_list cs

/-- The `for child in self.children: subtree_ids.extend(child.subtree_ids)`
loop of `__post_init__`. -/
def subtree_ids_list : List DomNode → List String
  | [] => []
  | c :: cs => subtree_ids c ++ subtree_ids_list cs
end

mutual
/-- `DomNode.inner_text` (dom_tree.py): a text node yields its own text;
otherwise the eligible children's inner texts are joined with a single
space.  A child is skipped when its inner text is empty; a child with no
attribute record is always eligible; otherwise the child is skipped when
`hidden is not None and not hidden`, or `visible is not None and not
visible`, or `enabled is not None and not enabled` (each of which is the
`some false` case). -/
def inner_text (n : DomNode) : String :=
  match n with
  | .mk _ t _ x cs _ _ =>
    if t = NodeType.text then x
    else String.intercalate " " (inner_text_list cs)

/-- The child-collection loop of `inner_text`. -/
def inner_text_list : List DomNode → List String
  | [] => []
  | c :: cs =>
    let ct := inner_text c
    (if ct.length = 0 then []
     else
       match c.attributes with
       | none => [ct]
       | some a =>
         if a.hidden = some false then []
         else if a.visible = some false then []
         else if a.enabled = some false then []
         else [ct]) ++ inner_text_list cs
end

/-- `DomNode.is_interaction` (dom_tree.py): false for unknown roles or
missing id; true when the type is INTERACTION; otherwise true exactly when
the role's category is the interaction category. -/
def DomNode.is_interaction (n : DomNode) : Bool :=
  match n.role with
  | .unknown _ => false
  | .known r =>
    match n.id with
    | none => false
    | some _ =>
      if n.type = NodeType.interaction then true
      else r.category = NodeCategory.interaction

mutual
/-- `DomNode.flatten`'s recursive `inner` (dom_tree.py): append the node to
the accumulator when `not only_interaction or node.is_interaction()`, then
recurse into the children with the same accumulator. -/
def flatten_inner (only : Bool) (n : DomNode) (acc : List DomNode) : List DomNode :=
  match n with
  | .mk i t r x cs a c =>
    flatten_fold only cs
      (if !only || (DomNode.mk i t r x cs a c).is_interaction then
        acc ++ [DomNode.mk i t r x cs a c]
      else acc)

/-- The `for child in node.children` loop of `flatten`'s `inner`. -/
def flatten_fold (only : Bool) : List DomNode → List DomNode → List DomNode
  | [], acc => acc
  | c :: cs, acc => flatten_fold only cs (flatten_inner only c acc)
end

/-- `DomNode.flatten` (dom_tree.py): run `inner` on an empty accumulator. -/
def DomNode.flatten (n : DomNode) (only_interaction : Bool) : List DomNode :=
  flatten_inner only_interaction n []

/-- The error classes raised by the embedded sources, one constructor per
Python exception class used there: `InvalidInternalCheckError` (carrying its
`check` message), `NodeFilteringResultsInEmptyGraph` (carrying url and
operation), `FailedNodeResolutionError` (carrying the node's id) and
`FailedUniqueLocatorResolutionError` (carrying the probed bundle).  The
class bodies live in the `notte/errors/*` modules, which are not among the
analysed sources; the constructor arguments mirror the call sites in
`dom_tree.py` and `resolution.py`. -/
inductive NotteError where
  | invalidInternalCheck (check : String)
  | nodeFilteringResultsInEmptyGraph (url : Option String) (operation : String)
  | failedNodeResolution (nodeId : Option String)
  | failedUniqueLocatorResolution (selectors : NodeSelectors)
deriving DecidableEq, Repr

/-- Modelled from the spec: §7 groups `FailedNodeResolutionError` and
`FailedUniqueLocatorResolutionError` (both from the missing
`notte/errors/resolution.py`) under the taxonomy entry
**NodeResolutionFailure** — "no unique locator" and "not actionable". -/
def NotteError.isNodeResolutionFailure : NotteError → Bool
  | .failedNodeResolution _ => true
  | .failedUniqueLocatorResolution _ => true
  | _ => false

/-- Modelled from the spec: §7's **ContractViolation** taxonomy entry is the
`InvalidInternalCheckError` class (its examples — coercing a non-interaction
node, id mismatch after lookup — are exactly the `InvalidInternalCheckError`
raise sites of the sources). -/
def NotteError.isContractViolation : NotteError → Bool
  | .invalidInternalCheck _ => true
  | _ => false

def exceptIsOk : Except NotteError α → Bool
  | .ok _ => true
  | .error _ => false

/-- `DomNode.get_url` (dom_tree.py): none when there is no selector bundle
or its `notte_selector` is empty, else the text before the first `:`. -/
def DomNode.get_url (n : DomNode) : Option String :=
  match n.computed_attributes.selectors with
  | none => none
  | some attr =>
    if attr.notte_selector.length = 0 then none
    else some ((attr.notte_selector.splitOn ":").headD "")

/-- `InteractionDomNode` (dom_tree.py): the `DomNode` subclass whose id is
always present and whose children are always empty; its `type` is always
`INTERACTION`.  The record stores the remaining fields. -/
structure InteractionDomNode where
  id : String
  role : NodeRole
  text : String
  attributes : Option DomAttributes
  computed_attributes : ComputedDomAttributes
deriving Repr

/-- The view of an `InteractionDomNode` as the `DomNode` it subclasses:
type INTERACTION, empty children. -/
def InteractionDomNode.toDomNode (n : InteractionDomNode) : DomNode :=
  .mk (some n.id) NodeType.interaction n.role n.text [] n.attributes
    n.computed_attributes

/-- `InteractionDomNode.__post_init__` (dom_tree.py) as a checked
constructor: raise `InvalidInternalCheckError` when the id is `None`, then
when the children list is non-empty; otherwise the instance is built. -/
def mkInteractionDomNode (id : Option String) (role : NodeRole) (text : String)
    (children : List DomNode) (attributes : Option DomAttributes)
    (computed_attributes : ComputedDomAttributes) :
    Except NotteError InteractionDomNode :=
  match id with
  | none =>
    .error (.invalidInternalCheck "InteractionNode must have a valid non-None id")
  | some i =>
    if children.length > 0 then
      .error (.invalidInternalCheck "InteractionNode must have no children")
    else .ok ⟨i, role, text, attributes, computed_attributes⟩

/-- `DomNode.to_interaction_node` (dom_tree.py): raise
`InvalidInternalCheckError` when the node's type is not INTERACTION;
otherwise build an `InteractionDomNode` from the node's fields with the
children replaced by the empty list ("children are not allowed in
interaction nodes"). -/
def DomNode.to_interaction_node (n : DomNode) : Except NotteError InteractionDomNode :=
  if n.type ≠ NodeType.interaction then
    .error (.invalidInternalCheck
      "DomNode must be an interaction node to be converted to an interaction node")
  else
    mkInteractionDomNode n.id n.role n.text [] n.attributes n.computed_attributes

mutual
/-- `DomNode.find` (dom_tree.py): when the node's own id matches, coerce it
with `to_interaction_node` (whose error propagates); otherwise search the
children in order, returning the first hit. -/
def find (n : DomNode) (id : String) : Except NotteError (Option InteractionDomNode) :=
  match n with
  | .mk i t r x cs a c =>
    if i = some id then
      match (DomNode.mk i t r x cs a c).to_interaction_node with
      | .error e => .error e
      | .ok inode => .ok (some inode)
    else find_list cs id

/-- The `for child in self.children` loop of `find`. -/
def find_list : List DomNode → String → Except NotteError (Option InteractionDomNode)
  | [], _ => .ok none
  | c :: cs, id =>
    match find c id with
    | .error e => .error e
    | .ok (some r) => .ok (some r)
    | .ok none => find_list cs id
end

mutual
/-- `DomNode.subtree_filter`'s recursive `inner` (dom_tree.py): drop the
node when the predicate rejects it; filter the children recursively; drop
the node when it has no id, no surviving children and empty stripped text;
otherwise rebuild it with the filtered children and all other fields
kept. -/
def subtree_filter (ft : DomNode → Bool) (n : DomNode) : Option DomNode :=
  match n with
  | .mk i t r x cs a c =>
    if !(ft (DomNode.mk i t r x cs a c)) then none
    else
      let filtered_children := subtree_filter_list ft cs
      if i.isNone && filtered_children.isEmpty && (x.trim == "") then none
      else some (DomNode.mk i t r x filtered_children a c)

/-- The `for child in children` loop of `subtree_filter`'s `inner`,
collecting the non-`None` filtered children in order. -/
def subtree_filter_list (ft : DomNode → Bool) : List DomNode → List DomNode
  | [] => []
  | c :: cs =>
    match subtree_filter ft c with
    | none => subtree_filter_list ft cs
    | some fc => fc :: subtree_filter_list ft cs
end

/-- The `only_roles` predicate of `DomNode.subtree_without` (dom_tree.py):
keep every node whose role is still a plain string (unknown role), and a
known-role node exactly when its role value is not in `roles`. -/
def only_roles (roles : List String) (n : DomNode) : Bool :=
  match n.role with
  | .unknown _ => true
  | .known r => !(roles.contains r.value)

/-- `DomNode.subtree_without` (dom_tree.py): filter with `only_roles` and
raise `NodeFilteringResultsInEmptyGraph` when nothing survives. -/
def subtree_without (n : DomNode) (roles : List String) : Except NotteError DomNode :=
  match subtree_filter (only_roles roles) n with
  | none =>
    .error (.nodeFilteringResultsInEmptyGraph n.get_url
      ("subtree_without(roles=" ++ String.intercalate "," roles ++ ")"))
  | some filtered => .ok filtered

/-- `ResolvedLocator` (dom_tree.py). -/
structure ResolvedLocator where
  role : NodeRole
  is_editable : Bool
  input_type : Option String
  selector : NodeSelectors
deriving DecidableEq, Repr

/-- A live frame of the page, identified by name.  Frames are an external
browser-driver concept (spec §6); only their page order and identity matter
to the embedded algorithms. -/
structure Frame where
  name : String
deriving DecidableEq, Repr

/-- The selector strings returned by `get_html_selector`
(`conflict_resolution.py`, not among the analysed sources): the fields read
by `fill_node_selectors`. -/
structure HtmlSelector where
  playwright_selector : Option String
  css_selector : String
  xpath_selector : String
deriving DecidableEq, Repr

/-- The external browser-driver capability surface (spec §6), as pure probe
functions.  `count sel f` models `frame.locator(sel).count()`: `Except.error
()` is a raised (transient) probing exception, `Except.ok k` a returned
match count.  `is_editable`, `get_attribute_type`, `is_visible` and
`is_enabled` model the state probes on the locator accepted for a
(selector, frame) pair.  `locator_for_node_id` and `html_selector` — both
modelled from the spec: the driver-level "locator for accessibility id"
lookup and the "derive selector strings from a locator" operation of the
missing `conflict_resolution.py`, each empty (`none`) when the lookup
fails. -/
structure PageModel where
  frames : List Frame
  count : String → Frame → Except Unit Nat
  is_editable : String → Frame → Bool
  get_attribute_type : String → Frame → Option String
  is_visible : String → Frame → Bool
  is_enabled : String → Frame → Bool
  locator_for_node_id : String → Option Nat
  html_selector : Nat → Option HtmlSelector

/-- The inner `for frame in self._browser.page.frames` loop of
`get_valid_locator` (resolution.py) for one candidate selector: return the
first frame whose match count is exactly 1; a non-1 count or a raised
probing exception moves on to the next frame. -/
def probe_frames (page : PageModel) (selector : String) : List Frame → Option Frame
  | [] => none
  | f :: fs =>
    match page.count selector f with
    | .ok k => if k = 1 then some f else probe_frames page selector fs
    | .error _ => probe_frames page selector fs

/-- The outer `for selector in selectors.selectors()` loop of
`get_valid_locator` (resolution.py): the first candidate selector with an
accepting frame wins, paired with that frame. -/
def probe_selectors (page : PageModel) : List String → Option (Frame × String)
  | [] => none
  | s :: ss =>
    match probe_frames page s page.frames with
    | some f => some (f, s)
    | none => probe_selectors page ss

/-- `ActionNodeResolutionPipe.get_valid_locator` (resolution.py): raise
`InvalidInternalCheckError` when the candidate list is empty, return the
first accepted (frame, selector) pair, and raise
`FailedUniqueLocatorResolutionError` when every pair was rejected. -/
def get_valid_locator (page : PageModel) (selectors : NodeSelectors) :
    Except NotteError (Frame × String) :=
  if selectors.selectors.length = 0 then
    .error (.invalidInternalCheck "No selectors found")
  else
    match probe_selectors page selectors.selectors with
    | some fs => .ok fs
    | none => .error (.failedUniqueLocatorResolution selectors)

/-- Instrumentation of `get_valid_locator`'s inner loop: the frames on
which `count` is actually called for one candidate selector, in order — the
loop stops right after an accepting frame. -/
def probed_frames_trace (page : PageModel) (selector : String) : List Frame → List Frame
  | [] => []
  | f :: fs =>
    f :: (match page.count selector f with
          | .ok k => if k = 1 then [] else probed_frames_trace page selector fs
          | .error _ => probed_frames_trace page selector fs)

/-- Instrumentation of `get_valid_locator`'s loop nest: the (selector,
frame) pairs actually probed, in probing order — later candidate selectors
are never reached once one is accepted. -/
def probe_trace (page : PageModel) : List String → List (String × Frame)
  | [] => []
  | s :: ss =>
    (probed_frames_trace page s page.frames).map (fun f => (s, f)) ++
      (match probe_frames page s page.frames with
       | some _ => []
       | none => probe_trace page ss)

/-- A (selector, frame) pair is accepted exactly when its match count
returns exactly 1 (spec §4.4 step 3). -/
def accepts (page : PageModel) (p : String × Frame) : Bool :=
  match page.count p.1 p.2 with
  | .ok 1 => true
  | _ => false

/-- The full candidate enumeration in the order the spec prescribes:
candidate selectors in bundle order, frames in page order within each
selector. -/
def all_pairs (page : PageModel) (sels : List String) : List (String × Frame) :=
  (sels.map (fun s => page.frames.map (fun f => (s, f)))).flatten

/-- The probing schedule as the spec words it: probe the candidate pairs in
order and stop at (and including) the first accepted one. -/
def take_until_accepted (page : PageModel) : List (String × Frame) → List (String × Frame)
  | [] => []
  | p :: ps => p :: (if accepts page p then [] else take_until_accepted page ps)

/-- `ActionNodeResolutionPipe.fill_node_selectors` (resolution.py): when the
node already has a selector bundle the body is skipped and the node is
untouched; otherwise (after the `assert node.id is not None`) the
driver-level fallback lookup runs: `get_locator_for_node_id`, failing with
`FailedNodeResolutionError` when empty, then `get_html_selector`, failing
the same way when empty, and the derived bundle is cached onto the node
with `set_selectors`.  The returned node is the (possibly mutated) input
node. -/
def fill_node_selectors (page : PageModel) (node : DomNode) :
    Except NotteError DomNode :=
  match node.computed_attributes.selectors with
  | some _ => .ok node
  | none =>
    match node.id with
    | none => .error (.invalidInternalCheck "assert node.id is not None")
    | some i =>
      match page.locator_for_node_id i with
      | none => .error (.failedNodeResolution node.id)
      | some loc =>
        match page.html_selector loc with
        | none => .error (.failedNodeResolution node.id)
        | some hs =>
          .ok (node.set_selectors
            ⟨hs.css_selector, hs.xpath_selector, "", false, false, [],
              hs.playwright_selector⟩)

/-- The tail of `ActionNodeResolutionPipe.compute_attributes`
(resolution.py) once a selector bundle is in hand: find a unique live
locator, probe editable / input type / visible / enabled, raise
`FailedNodeResolutionError` when not visible or not enabled, and return the
`ResolvedLocator` with the accepted selector as the bundle's playwright
selector. -/
def compute_with_bundle (page : PageModel) (node : DomNode)
    (selectors : NodeSelectors) : Except NotteError ResolvedLocator :=
  match get_valid_locator page selectors with
  | .error e => .error e
  | .ok (frame, selector) =>
    let is_editable := page.is_editable selector frame
    let input_type :=
      if is_editable then page.get_attribute_type selector frame else none
    let visible := page.is_visible selector frame
    let enabled := page.is_enabled selector frame
    if !visible || !enabled then .error (.failedNodeResolution node.id)
    else
      .ok ⟨node.role, is_editable, input_type,
        ⟨selectors.css_selector, selectors.xpath_selector,
          selectors.notte_selector, selectors.in_iframe,
          selectors.in_shadow_root, selectors.iframe_parent_css_selectors,
          some selector⟩⟩

/-- `ActionNodeResolutionPipe.compute_attributes` (resolution.py): raise
`InvalidInternalCheckError` on a missing id; run `fill_node_selectors` when
no bundle is cached, re-reading the (possibly mutated) node afterwards;
raise `InvalidInternalCheckError` when there is still no bundle; then
continue with `compute_with_bundle`.  The second component is the node in
its final state, modelling the in-place mutation of the Python node. -/
def compute_attributes (page : PageModel) (node : DomNode) :
    Except NotteError ResolvedLocator × DomNode :=
  match node.id with
  | none => (.error (.invalidInternalCheck "node.id cannot be None"), node)
  | some _ =>
    match node.computed_attributes.selectors with
    | some selectors => (compute_with_bundle page node selectors, node)
    | none =>
      match fill_node_selectors page node with
      | .error e => (.error e, node)
      | .ok node' =>
        match node'.computed_attributes.selectors with
        | none => (.error (.invalidInternalCheck "No selectors found"), node')
        | some selectors => (compute_with_bundle page node' selectors, node')

/-- The fields of an `Action` (actions/base.py, not among the analysed
sources) that `ActionNodeResolutionPipe.forward` reads. -/
structure ActionModel where
  id : String
  description : String
  category : String
deriving DecidableEq, Repr

/-- The fields of the `ExecutableAction` built by `forward` that the
embedding tracks. -/
structure ExecutableActionModel where
  id : String
  status : String
  locator : ResolvedLocator
deriving DecidableEq, Repr

/-- `ActionNodeResolutionPipe.forward` (resolution.py): look the action id
up in the graph with `find` (whose own error propagates); raise
`InvalidInternalCheckError` "not found in graph" when the lookup returns
nothing; raise `InvalidInternalCheckError` "does not match" when the found
node's id disagrees with the requested id; otherwise resolve the node with
`compute_attributes` and wrap the locator into an executable action with
status "valid". -/
def forward (page : PageModel) (action : ActionModel) (root : DomNode) :
    Except NotteError ExecutableActionModel :=
  match find root action.id with
  | .error e => .error e
  | .ok none =>
    .error (.invalidInternalCheck
      ("Node with id " ++ action.id ++ " not found in graph"))
  | .ok (some node) =>
    if node.id ≠ action.id then
      .error (.invalidInternalCheck
        ("Resolved node id " ++ node.id ++ " does not match action id " ++ action.id))
    else
      match (compute_attributes page node.toDomNode).1 with
      | .error e => .error e
      | .ok locator => .ok ⟨action.id, "valid", locator⟩

/-! ## Helper lemmas -/

/-- Strong induction over the node graph: to prove a property of every
node it suffices to prove it for a node assuming it for all its children. -/
theorem DomNode.strongInd (P : DomNode → Prop)
    (h : ∀ i t r x cs a c, (∀ m, m ∈ cs → P m) → P (DomNode.mk i t r x cs a c)) :
    ∀ n, P n
  | DomNode.mk i t r x cs a c =>
    h i t r x cs a c (fun m hm =>
      have : sizeOf m < sizeOf (DomNode.mk i t r x cs a c) := by
        have h1 := List.sizeOf_lt_of_mem hm
        simp only [DomNode.mk.sizeOf_spec]
        omega
      DomNode.strongInd P h m)
termination_by n => sizeOf n

/-- A selector bundle always lists at least the css and xpath selectors. -/
theorem selectors_length_pos (s : NodeSelectors) : 0 < s.selectors.length := by
  unfold NodeSelectors.selectors
  cases s.playwright_selector <;> simp

theorem selectors_ne_nil (s : NodeSelectors) : s.selectors ≠ [] := by
  have h := selectors_length_pos s
  intro hnil
  rw [hnil] at h
  simp at h

/-- Because the candidate list is never empty, `get_valid_locator` always
reduces to the probing loop's outcome. -/
theorem get_valid_locator_probe_eq (page : PageModel) (b : NodeSelectors) :
    get_valid_locator page b
      = (match probe_selectors page b.selectors with
         | some fs => .ok fs
         | none => .error (.failedUniqueLocatorResolution b)) := by
  unfold get_valid_locator
  have h := selectors_length_pos b
  simp only [Nat.pos_iff_ne_zero] at h
  simp [h]

/-- The inner frame loop accepts exactly the first frame (in page order)
whose match count is exactly 1. -/
theorem accepts_eq_false_of_count (page : PageModel) (s : String) (f : Frame)
    (k : Nat) (hc : page.count s f = Except.ok k) (hk : k ≠ 1) :
    accepts page (s, f) = false := by
  simp only [accepts, hc]
  rcases k with _ | k2
  · rfl
  · rcases k2 with _ | k3
    · exact absurd rfl hk
    · rfl

theorem probe_frames_eq_find? (page : PageModel) (s : String) (fs : List Frame) :
    probe_frames page s fs = fs.find? (fun f => accepts page (s, f)) := by
  induction fs with
  | nil => rfl
  | cons f fs ih =>
    simp only [probe_frames, List.find?]
    rcases hc : page.count s f with e | k
    · have ha : accepts page (s, f) = false := by simp [accepts, hc]
      simp [ha, ih]
    · by_cases hk : k = 1
      · subst hk
        have ha : accepts page (s, f) = true := by simp [accepts, hc]
        simp [ha]
      · have ha := accepts_eq_false_of_count page s f k hc hk
        simp [hk, ha, ih]

/-- The loop nest of `get_valid_locator` accepts exactly the first
(selector, frame) pair, in candidate-then-frame order, whose match count is
exactly 1. -/
theorem probe_selectors_eq_find? (page : PageModel) (sels : List String) :
    probe_selectors page sels
      = ((all_pairs page sels).find? (accepts page)).map (fun p => (p.2, p.1)) := by
  induction sels with
  | nil => rfl
  | cons s ss ih =>
    have hall : all_pairs page (s :: ss)
        = page.frames.map (fun f => (s, f)) ++ all_pairs page ss := by
      simp [all_pairs]
    simp only [probe_selectors, hall, List.find?_append, probe_frames_eq_find?]
    have hmap : (page.frames.map (fun f => (s, f))).find? (accepts page)
        = (page.frames.find? (fun f => accepts page (s, f))).map (fun f => (s, f)) := by
      rw [List.find?_map]
      rfl
    rw [hmap]
    rcases page.frames.find? (fun f => accepts page (s, f)) with _ | f
    · simpa using ih
    · simp [Option.or]

/-- Membership in the candidate-pair enumeration. -/
theorem mem_all_pairs (page : PageModel) (sels : List String) (s : String) (f : Frame) :
    (s, f) ∈ all_pairs page sels ↔ s ∈ sels ∧ f ∈ page.frames := by
  simp only [all_pairs, List.mem_flatten]
  constructor
  · rintro ⟨l, hl, hm⟩
    simp only [List.mem_map] at hl
    rcases hl with ⟨s', hs', rfl⟩
    simp only [List.mem_map] at hm
    rcases hm with ⟨f', hf', heq⟩
    cases heq
    exact ⟨hs', hf'⟩
  · rintro ⟨hs, hf⟩
    exact ⟨page.frames.map (fun f => (s, f)), List.mem_map_of_mem _ hs,
      List.mem_map_of_mem _ hf⟩

/-- A pair is rejected exactly when its count probe does not return 1 —
counts of 0 or of 2 and more, and raised probing exceptions, are all
rejections. -/
theorem accepts_false_iff (page : PageModel) (s : String) (f : Frame) :
    accepts page (s, f) = false ↔ page.count s f ≠ Except.ok 1 := by
  rcases hc : page.count s f with e | k
  · simp [accepts, hc]
  · by_cases hk : k = 1
    · subst hk
      simp [accepts, hc]
    · have ha := accepts_eq_false_of_count page s f k hc hk
      rw [ha]
      simp only [hc]
      constructor
      · intro _ hcontr
        exact hk (by injection hcontr)
      · intro _
        trivial

/-- A pair is accepted exactly when its count probe returns 1. -/
theorem accepts_true_iff (page : PageModel) (s : String) (f : Frame) :
    accepts page (s, f) = true ↔ page.count s f = Except.ok 1 := by
  constructor
  · intro h
    by_contra hne
    rw [(accepts_false_iff page s f).2 hne] at h
    cases h
  · intro h
    simp [accepts, h]

/-- One selector's stretch of the probing schedule: the frames probed for
one candidate, followed (only when no frame accepted) by the rest of the
schedule, is the stop-at-first-accept prefix of that candidate's pairs
prepended to the remaining pairs. -/
theorem trace_frames (page : PageModel) (s : String) (fs : List Frame)
    (ys : List (String × Frame)) :
    ((probed_frames_trace page s fs).map (fun f => (s, f))) ++
      (match probe_frames page s fs with
       | some _ => ([] : List (String × Frame))
       | none => take_until_accepted page ys)
    = take_until_accepted page ((fs.map (fun f => (s, f))) ++ ys) := by
  induction fs with
  | nil => rfl
  | cons f fs ih =>
    rcases hc : page.count s f with e | k
    · have ha : accepts page (s, f) = false := by simp [accepts, hc]
      have hpt : probed_frames_trace page s (f :: fs)
          = f :: probed_frames_trace page s fs := by
        simp [probed_frames_trace, hc]
      have hpf : probe_frames page s (f :: fs) = probe_frames page s fs := by
        simp [probe_frames, hc]
      have hrhs : take_until_accepted page (((f :: fs).map (fun f => (s, f))) ++ ys)
          = (s, f) :: take_until_accepted page ((fs.map (fun f => (s, f))) ++ ys) := by
        simp [take_until_accepted, ha]
      rw [hpt, hpf, List.map_cons, List.cons_append, hrhs]
      exact congrArg _ ih
    · by_cases hk : k = 1
      · subst hk
        have ha : accepts page (s, f) = true := by simp [accepts, hc]
        have hpt : probed_frames_trace page s (f :: fs) = [f] := by
          simp [probed_frames_trace, hc]
        have hpf : probe_frames page s (f :: fs) = some f := by
          simp [probe_frames, hc]
        rw [hpt, hpf, List.map_cons, List.cons_append]
        simp [take_until_accepted, ha]
      · have ha := accepts_eq_false_of_count page s f k hc hk
        have hpt : probed_frames_trace page s (f :: fs)
            = f :: probed_frames_trace page s fs := by
          simp [probed_frames_trace, hc, hk]
        have hpf : probe_frames page s (f :: fs) = probe_frames page s fs := by
          simp [probe_frames, hc, hk]
        have hrhs : take_until_accepted page (((f :: fs).map (fun f => (s, f))) ++ ys)
            = (s, f) :: take_until_accepted page ((fs.map (fun f => (s, f))) ++ ys) := by
          simp [take_until_accepted, ha]
        rw [hpt, hpf, List.map_cons, List.cons_append, hrhs]
        exact congrArg _ ih

/-- The probing schedule of `get_valid_locator`'s loop nest is exactly the
spec's schedule: the full candidate enumeration cut at (and including) the
first accepted pair. -/
theorem probe_trace_eq_take_until (page : PageModel) (sels : List String) :
    probe_trace page sels = take_until_accepted page (all_pairs page sels) := by
  induction sels with
  | nil => rfl
  | cons s ss ih =>
    have hall : all_pairs page (s :: ss)
        = page.frames.map (fun f => (s, f)) ++ all_pairs page ss := by
      simp [all_pairs]
    rw [hall, ← trace_frames page s page.frames (all_pairs page ss)]
    simp only [probe_trace]
    rcases probe_frames page s page.frames with _ | f
    · rw [ih]
    · rfl

/-- An accepted result of `get_valid_locator` is an in-range pair whose
count probe returned exactly 1. -/
theorem get_valid_locator_ok_accepts (page : PageModel) (b : NodeSelectors)
    (fr : Frame) (sel : String)
    (h : get_valid_locator page b = .ok (fr, sel)) :
    sel ∈ b.selectors ∧ fr ∈ page.frames ∧ page.count sel fr = Except.ok 1 := by
  have h10 := get_valid_locator_probe_eq page b
  rw [h10, probe_selectors_eq_find?] at h
  rcases hf : (all_pairs page b.selectors).find? (accepts page) with _ | p
  · rw [hf] at h
    cases h
  · rw [hf] at h
    have h2 : Except.ok (ε := NotteError) (p.2, p.1) = Except.ok (fr, sel) := h
    injection h2 with h3
    injection h3 with hfr hsel
    have hmem := List.mem_of_find?_eq_some hf
    have hacc := List.find?_some hf
    rcases p with ⟨ps, pf⟩
    simp only at hfr hsel
    rw [mem_all_pairs] at hmem
    rw [← hsel, ← hfr]
    exact ⟨hmem.1, hmem.2, (accepts_true_iff page ps pf).1 hacc⟩

/-- `get_valid_locator` fails exactly when no (selector, frame) pair's
count probe returns exactly 1, and its failure is then always the
`FailedUniqueLocatorResolutionError`. -/
theorem get_valid_locator_error_iff (page : PageModel) (b : NodeSelectors) :
    get_valid_locator page b = .error (.failedUniqueLocatorResolution b)
    ↔ ∀ s ∈ b.selectors, ∀ f ∈ page.frames, page.count s f ≠ Except.ok 1 := by
  have h10 := get_valid_locator_probe_eq page b
  rw [h10, probe_selectors_eq_find?]
  constructor
  · intro h s hs f hf
    rcases hfind : (all_pairs page b.selectors).find? (accepts page) with _ | p
    · have hnone := List.find?_eq_none.1 hfind (s, f) ((mem_all_pairs page _ s f).2 ⟨hs, hf⟩)
      rw [Bool.not_eq_true, accepts_false_iff] at hnone
      exact hnone
    · rw [hfind] at h
      simp at h
  · intro hall
    rcases hfind : (all_pairs page b.selectors).find? (accepts page) with _ | p
    · simp
    · have hmem := List.mem_of_find?_eq_some hfind
      have hacc := List.find?_some hfind
      rcases p with ⟨ps, pf⟩
      rw [mem_all_pairs] at hmem
      have := (accepts_true_iff page ps pf).1 hacc
      exact absurd this (hall ps hmem.1 pf hmem.2)

/-- `get_valid_locator` either accepts a pair or fails with the
unique-locator error; no other outcome exists. -/
theorem get_valid_locator_cases (page : PageModel) (b : NodeSelectors) :
    (∃ fr sel, get_valid_locator page b = .ok (fr, sel))
    ∨ get_valid_locator page b = .error (.failedUniqueLocatorResolution b) := by
  have h10 := get_valid_locator_probe_eq page b
  rcases hps : probe_selectors page b.selectors with _ | p
  · right
    rw [h10, hps]
  · left
    exact ⟨p.1, p.2, by rw [h10, hps]⟩

/-- The child loop of `find` only surfaces hits whose id is the searched
id, provided each child's `find` does. -/
theorem find_list_id_eq (id : String) : ∀ (cs : List DomNode),
    (∀ m ∈ cs, ∀ n, find m id = .ok (some n) → n.id = id) →
    ∀ n, find_list cs id = .ok (some n) → n.id = id
  | [], _, n, h => by
    simp only [find_list] at h
    exact absurd h (by simp)
  | c1 :: cs1, ih, n, h => by
    simp only [find_list] at h
    rcases hf : find c1 id with e | r
    · rw [hf] at h
      cases h
    · rcases r with _ | m
      · rw [hf] at h
        exact find_list_id_eq id cs1
          (fun m hm => ih m (List.mem_cons_of_mem _ hm)) n h
      · rw [hf] at h
        injection h with h2
        injection h2 with h3
        subst h3
        exact ih c1 (List.mem_cons_self c1 cs1) m hf

/-- `find` only returns a node whose id is the searched id: the defensive
id-disagreement branch of `forward` can never fire. -/
theorem find_id_eq (id : String) : ∀ t, ∀ n,
    find t id = .ok (some n) → n.id = id := by
  refine DomNode.strongInd (fun t => ∀ n, find t id = .ok (some n) → n.id = id) ?_
  intro i t r x cs a c ih n h
  simp only [find] at h
  by_cases hid : i = some id
  · rw [if_pos hid] at h
    subst hid
    simp only [DomNode.to_interaction_node, mkInteractionDomNode, DomNode.type,
      DomNode.id, DomNode.role, DomNode.text, DomNode.attributes,
      DomNode.computed_attributes] at h
    by_cases ht : t = NodeType.interaction
    · subst ht
      simp only [ne_eq, not_true_eq_false, if_false, reduceIte] at h
      injection h with h2
      injection h2 with h3
      subst h3
      rfl
    · rw [if_pos (by simp [ht])] at h
      cases h
  · rw [if_neg hid] at h
    exact find_list_id_eq id cs ih n h

/-- The accumulator of `flatten`'s loops only ever grows at the end: the
fold over a child list prefixed by any accumulator equals that accumulator
followed by the fold started empty, provided each child's `inner` has the
same property. -/
theorem flatten_fold_acc (only : Bool) : ∀ (cs : List DomNode),
    (∀ c ∈ cs, ∀ acc2, flatten_inner only c acc2 = acc2 ++ flatten_inner only c []) →
    ∀ acc, flatten_fold only cs acc = acc ++ flatten_fold only cs []
  | [], _, acc => by simp [flatten_fold]
  | c1 :: cs1, h, acc => by
    have ih := flatten_fold_acc only cs1
      (fun c hc => h c (List.mem_cons_of_mem _ hc))
    simp only [flatten_fold]
    rw [ih (flatten_inner only c1 acc), h c1 (List.mem_cons_self c1 cs1) acc,
      ih (flatten_inner only c1 []), List.append_assoc]

/-- `flatten`'s `inner` appends its output after the incoming
accumulator. -/
theorem flatten_inner_acc (only : Bool) : ∀ (n : DomNode) (acc : List DomNode),
    flatten_inner only n acc = acc ++ flatten_inner only n [] := by
  refine DomNode.strongInd
    (fun n => ∀ acc, flatten_inner only n acc = acc ++ flatten_inner only n []) ?_
  intro i t r x cs a c ih acc
  simp only [flatten_inner]
  rcases hcond : (!only || (DomNode.mk i t r x cs a c).is_interaction) with _ | _
  · rw [if_neg (by simp), if_neg (by simp)]
    exact flatten_fold_acc only cs ih acc
  · rw [if_pos rfl, if_pos rfl]
    rw [flatten_fold_acc only cs ih (acc ++ [DomNode.mk i t r x cs a c]),
      flatten_fold_acc only cs ih ([] ++ [DomNode.mk i t r x cs a c])]
    simp

/-- In full traversal (`only_interaction = False`) `flatten` lists the node
itself first, then the fold over its children. -/
theorem flatten_false_unfold (n : DomNode) :
    n.flatten false = n :: flatten_fold false n.children [] := by
  rcases n with ⟨i, t, r, x, cs, a, c⟩
  show flatten_inner false (DomNode.mk i t r x cs a c) [] = _
  simp only [flatten_inner, Bool.not_false, Bool.true_or, if_pos]
  rw [flatten_fold_acc false cs (fun c2 _ => flatten_inner_acc false c2)
    ([] ++ [DomNode.mk i t r x cs a c])]
  simp [DomNode.children]

/-- The children fold of a full traversal is the concatenation of the
children's own full traversals. -/
theorem flatten_fold_false_eq : ∀ (cs : List DomNode),
    flatten_fold false cs [] = (cs.map (fun c => c.flatten false)).flatten
  | [] => by simp [flatten_fold]
  | c1 :: cs1 => by
    simp only [flatten_fold, List.map_cons, List.flatten_cons]
    rw [flatten_fold_acc false cs1 (fun c2 _ => flatten_inner_acc false c2)
      (flatten_inner false c1 [])]
    rw [flatten_fold_false_eq cs1]
    rfl

/-- Every node heads its own full traversal. -/
theorem self_mem_flatten_false (n : DomNode) : n ∈ n.flatten false := by
  rw [flatten_false_unfold]
  exact List.mem_cons_self n _

/-- One step of the children fold of a full traversal. -/
theorem flatten_fold_false_cons (c1 : DomNode) (cs1 : List DomNode) :
    flatten_fold false (c1 :: cs1) []
      = flatten_inner false c1 [] ++ flatten_fold false cs1 [] := by
  simp only [flatten_fold]
  rw [flatten_fold_acc false cs1 (fun c2 _ => flatten_inner_acc false c2)
    (flatten_inner false c1 [])]

/-- The id-concatenation loop of `__post_init__` agrees with collecting the
present ids of the children's full traversals. -/
theorem subtree_ids_list_eq_fold : ∀ (cs : List DomNode),
    (∀ c ∈ cs, subtree_ids c = (c.flatten false).filterMap DomNode.id) →
    subtree_ids_list cs = (flatten_fold false cs []).filterMap DomNode.id
  | [], _ => rfl
  | c1 :: cs1, h => by
    simp only [subtree_ids_list]
    rw [flatten_fold_false_cons, List.filterMap_append,
      h c1 (List.mem_cons_self c1 cs1),
      subtree_ids_list_eq_fold cs1 (fun c hc => h c (List.mem_cons_of_mem _ hc))]
    rfl

/-- `subtree_ids` is exactly the list of present ids of the node's full
pre-order traversal. -/
theorem subtree_ids_eq_flatten_ids : ∀ (n : DomNode),
    subtree_ids n = (n.flatten false).filterMap DomNode.id := by
  refine DomNode.strongInd
    (fun n => subtree_ids n = (n.flatten false).filterMap DomNode.id) ?_
  intro i t r x cs a c ih
  rw [flatten_false_unfold]
  simp only [DomNode.children]
  rw [List.filterMap_cons]
  simp only [subtree_ids, DomNode.id]
  rw [← subtree_ids_list_eq_fold cs ih]
  rcases i with _ | iv
  · rfl
  · rfl

/-- A predicate on nodes that does not look at the children list: its value
is unchanged when the children are replaced.  `subtree_filter` rebuilds
surviving nodes with filtered children, so this is the locality condition
under which re-filtering is stable. -/
def ChildrenIndependent (ft : DomNode → Bool) : Prop :=
  ∀ i t r x cs cs2 a c,
    ft (DomNode.mk i t r x cs a c) = ft (DomNode.mk i t r x cs2 a c)

/-- Every member of the filtered child list is the filtered image of some
original child. -/
theorem mem_subtree_filter_list (ft : DomNode → Bool) :
    ∀ (cs : List DomNode) (fc : DomNode),
    fc ∈ subtree_filter_list ft cs → ∃ c ∈ cs, subtree_filter ft c = some fc
  | [], fc, h => by simp [subtree_filter_list] at h
  | c1 :: cs1, fc, h => by
    simp only [subtree_filter_list] at h
    rcases hf : subtree_filter ft c1 with _ | fc1
    · rw [hf] at h
      rcases mem_subtree_filter_list ft cs1 fc h with ⟨c0, hc0, hfc⟩
      exact ⟨c0, List.mem_cons_of_mem _ hc0, hfc⟩
    · rw [hf] at h
      rcases List.mem_cons.1 h with rfl | h2
      · exact ⟨c1, List.mem_cons_self c1 cs1, hf⟩
      · rcases mem_subtree_filter_list ft cs1 fc h2 with ⟨c0, hc0, hfc⟩
        exact ⟨c0, List.mem_cons_of_mem _ hc0, hfc⟩

/-- Membership in a children fold is membership in some child's full
traversal. -/
theorem mem_flatten_fold (cs : List DomNode) (m : DomNode) :
    m ∈ flatten_fold false cs [] ↔ ∃ c ∈ cs, m ∈ c.flatten false := by
  rw [flatten_fold_false_eq]
  simp only [List.mem_flatten, List.mem_map]
  constructor
  · rintro ⟨l, ⟨c0, hc0, rfl⟩, hm⟩
    exact ⟨c0, hc0, hm⟩
  · rintro ⟨c0, hc0, hm⟩
    exact ⟨c0.flatten false, ⟨c0, hc0, rfl⟩, hm⟩

/-- Every node of a filtered tree passes a children-independent filtering
predicate. -/
theorem subtree_filter_survivors (ft : DomNode → Bool)
    (hft : ChildrenIndependent ft) :
    ∀ t, ∀ t', subtree_filter ft t = some t' →
      ∀ m ∈ t'.flatten false, ft m = true := by
  refine DomNode.strongInd
    (fun t => ∀ t', subtree_filter ft t = some t' →
      ∀ m ∈ t'.flatten false, ft m = true) ?_
  intro i ty r x cs a c ih t' h m hm
  rcases hf : ft (DomNode.mk i ty r x cs a c) with _ | _
  · simp [subtree_filter, hf] at h
  · have h2 : (if (i.isNone && (subtree_filter_list ft cs).isEmpty && (x.trim == "")) = true
        then none
        else some (DomNode.mk i ty r x (subtree_filter_list ft cs) a c)) = some t' := by
      rw [← h]
      simp only [subtree_filter, hf]
      rfl
    rcases hg : (i.isNone && (subtree_filter_list ft cs).isEmpty && (x.trim == "")) with _ | _
    · rw [hg] at h2
      simp only [Bool.false_eq_true, if_false] at h2
      injection h2 with h3
      subst h3
      rw [flatten_false_unfold] at hm
      simp only [DomNode.children] at hm
      rcases List.mem_cons.1 hm with rfl | hm2
      · rw [hft i ty r x (subtree_filter_list ft cs) cs a c]
        exact hf
      · rcases (mem_flatten_fold _ m).1 hm2 with ⟨fc, hfc, hmfc⟩
        rcases mem_subtree_filter_list ft cs fc hfc with ⟨c0, hc0, hc0f⟩
        exact ih c0 hc0 fc hc0f m hmfc
    · rw [hg] at h2
      simp at h2

/-- The filtered child list is pointwise stable under a second filtering
pass when each child's own filtered image is stable. -/
theorem subtree_filter_list_idem (ft : DomNode → Bool) : ∀ (cs : List DomNode),
    (∀ c ∈ cs, ∀ fc, subtree_filter ft c = some fc → subtree_filter ft fc = some fc) →
    subtree_filter_list ft (subtree_filter_list ft cs) = subtree_filter_list ft cs
  | [], _ => rfl
  | c1 :: cs1, h => by
    rcases hf : subtree_filter ft c1 with _ | fc
    · have hcons : subtree_filter_list ft (c1 :: cs1) = subtree_filter_list ft cs1 := by
        simp only [subtree_filter_list]
        rw [hf]
      rw [hcons]
      exact subtree_filter_list_idem ft cs1
        (fun c hc => h c (List.mem_cons_of_mem _ hc))
    · have hcons : subtree_filter_list ft (c1 :: cs1)
          = fc :: subtree_filter_list ft cs1 := by
        simp only [subtree_filter_list]
        rw [hf]
      rw [hcons]
      have hfc := h c1 (List.mem_cons_self c1 cs1) fc hf
      have htail := subtree_filter_list_idem ft cs1
        (fun c hc => h c (List.mem_cons_of_mem _ hc))
      simp only [subtree_filter_list, hfc, htail]

/-! ## Claim theorems -/

/-- A predicate that counts children, and a two-level tree it filters, for
the C7 counterexample. -/
def c7_pred : DomNode → Bool := fun n => n.children.length == 1

def c7_child : DomNode :=
  .mk (some "c") .other (.unknown "group") "ct" [] none
    ComputedDomAttributes.default

def c7_tree : DomNode :=
  .mk (some "r") .other (.unknown "group") "rt" [c7_child] none
    ComputedDomAttributes.default

def c7_tree_filtered : DomNode :=
  .mk (some "r") .other (.unknown "group") "rt" [] none
    ComputedDomAttributes.default

/-- C7 counterexample: the claim quantifies over every predicate, but for
the predicate "has exactly one child" filtering the two-node tree keeps the
root and drops its child, and re-filtering the result eliminates the root
itself (it no longer has a child), returning `none` instead of an
isomorphic tree: `subtree_filter` is not idempotent for predicates that
inspect the children. -/
theorem c7_subtree_filter_not_idempotent_for_child_counting :
    subtree_filter c7_pred c7_tree = some c7_tree_filtered
    ∧ subtree_filter c7_pred c7_tree_filtered = none :=
  ⟨rfl, rfl⟩

/-- C7 amended: `subtree_filter` is idempotent for every predicate that
does not inspect the children list (all the predicates the sources pass to
it — role tests — are of this shape): re-filtering an already-filtered tree
with the same children-independent predicate returns it unchanged. -/
theorem c7_subtree_filter_idempotent_for_children_independent
    (ft : DomNode → Bool) (hft : ChildrenIndependent ft) :
    ∀ t t', subtree_filter ft t = some t' → subtree_filter ft t' = some t' := by
  refine DomNode.strongInd
    (fun t => ∀ t', subtree_filter ft t = some t' → subtree_filter ft t' = some t') ?_
  intro i ty r x cs a c ih t' h
  rcases hf : ft (DomNode.mk i ty r x cs a c) with _ | _
  · simp [subtree_filter, hf] at h
  · have h2 : (if (i.isNone && (subtree_filter_list ft cs).isEmpty && (x.trim == "")) = true
        then none
        else some (DomNode.mk i ty r x (subtree_filter_list ft cs) a c)) = some t' := by
      rw [← h]
      simp only [subtree_filter, hf]
      rfl
    rcases hg : (i.isNone && (subtree_filter_list ft cs).isEmpty && (x.trim == "")) with _ | _
    · rw [hg] at h2
      simp only [Bool.false_eq_true, if_false] at h2
      injection h2 with h3
      subst h3
      have hft2 : ft (DomNode.mk i ty r x (subtree_filter_list ft cs) a c) = true := by
        rw [hft i ty r x (subtree_filter_list ft cs) cs a c]
        exact hf
      have hlist : subtree_filter_list ft (subtree_filter_list ft cs)
          = subtree_filter_list ft cs :=
        subtree_filter_list_idem ft cs (fun c0 hc0 fc hfc => ih c0 hc0 fc hfc)
      simp only [subtree_filter, hft2, Bool.not_true, Bool.false_eq_true, if_false,
        hlist, hg]
    · rw [hg] at h2
      simp at h2

/-- A children-independent predicate (id presence) and a tree it properly
filters, for the C7 witness. -/
def c7w_pred : DomNode → Bool := fun n => n.id.isSome

def c7w_keep : DomNode :=
  .mk (some "a") .text (.unknown "text") "A" [] none
    ComputedDomAttributes.default

def c7w_drop : DomNode :=
  .mk none .other (.unknown "group") "" [] none ComputedDomAttributes.default

def c7w_tree : DomNode :=
  .mk (some "r") .other (.unknown "group") "" [c7w_keep, c7w_drop] none
    ComputedDomAttributes.default

def c7w_filtered : DomNode :=
  .mk (some "r") .other (.unknown "group") "" [c7w_keep] none
    ComputedDomAttributes.default

/-- C7 witness: filtering the concrete tree by id presence drops one child,
and re-filtering the filtered tree returns it unchanged. -/
theorem c7_subtree_filter_idempotent_witness :
    subtree_filter c7w_pred c7w_tree = some c7w_filtered
    ∧ subtree_filter c7w_pred c7w_filtered = some c7w_filtered :=
  ⟨rfl, c7_subtree_filter_idempotent_for_children_independent c7w_pred
    (fun _ _ _ _ _ _ _ _ => rfl) c7w_tree c7w_filtered rfl⟩

/-- C8 amended: `subtree_without(roles)` removes every node whose *known*
role value is in `roles` — every node of the returned tree passes
`only_roles`, so no known-role node with a value in `roles` survives — and
raises `NodeFilteringResultsInEmptyGraph` when nothing survives, in
particular whenever every node of the tree has a known role whose value is
in `roles`.  Nodes whose role is an unclassified plain string are kept
unconditionally, which is what refutes the claim's "every node whose role
is in the given role set". -/
theorem c8_subtree_without_removes_known_roles (t : DomNode) (roles : List String) :
    (∀ t', subtree_without t roles = .ok t' →
        ∀ m ∈ t'.flatten false, only_roles roles m = true)
    ∧ ((∀ m ∈ t.flatten false, ∃ r, m.role = NodeRole.known r ∧ r.value ∈ roles) →
        subtree_without t roles
          = .error (.nodeFilteringResultsInEmptyGraph t.get_url
              ("subtree_without(roles=" ++ String.intercalate "," roles ++ ")"))) := by
  constructor
  · intro t' h m hm
    unfold subtree_without at h
    rcases hsf : subtree_filter (only_roles roles) t with _ | ft'
    · rw [hsf] at h
      cases h
    · rw [hsf] at h
      injection h with h2
      subst h2
      have hci : ChildrenIndependent (only_roles roles) := by
        intro i ty r x cs cs2 a c
        rfl
      exact subtree_filter_survivors (only_roles roles) hci t ft' hsf m hm
  · intro hall
    rcases hall t (self_mem_flatten_false t) with ⟨r, hrole, hrin⟩
    have hor : only_roles roles t = false := by
      simp [only_roles, hrole, hrin]
    have hnone : subtree_filter (only_roles roles) t = none := by
      rcases t with ⟨i, ty, r2, x, cs, a, c⟩
      simp [subtree_filter, hor]
    unfold subtree_without
    rw [hnone]

/-- A one-node tree whose role is the known role "banner", for the C8
witness. -/
def c8w_tree : DomNode :=
  .mk (some "a") .other (.known ⟨"banner", .other⟩) "" [] none
    ComputedDomAttributes.default

/-- C8 witness: on a tree whose single node carries the known role "banner"
that is in the excluded set, nothing survives and the user-visible
empty-graph error is raised. -/
theorem c8_subtree_without_removes_known_roles_witness :
    subtree_without c8w_tree ["banner"]
      = .error (.nodeFilteringResultsInEmptyGraph none
          "subtree_without(roles=banner)") := by
  have h := (c8_subtree_without_removes_known_roles c8w_tree ["banner"]).2
  have hhyp : ∀ m ∈ c8w_tree.flatten false,
      ∃ r, m.role = NodeRole.known r ∧ r.value ∈ ["banner"] := by
    intro m hm
    have hfl : c8w_tree.flatten false = [c8w_tree] := rfl
    rw [hfl, List.mem_singleton] at hm
    subst hm
    exact ⟨⟨"banner", NodeCategory.other⟩, rfl, by simp⟩
  exact h hhyp

/-- C9: when a node's selector bundle is already cached,
`fill_node_selectors` returns the node untouched (the fallback lookup body
is skipped entirely) and `compute_attributes` is read-only: it leaves the
node — every field of it — unchanged, and resolves through exactly the
cached bundle. -/
theorem c9_cached_selectors_read_only (page : PageModel) (node : DomNode)
    (b : NodeSelectors) (i : String)
    (hb : node.computed_attributes.selectors = some b)
    (hi : node.id = some i) :
    fill_node_selectors page node = .ok node
    ∧ (compute_attributes page node).2 = node
    ∧ (compute_attributes page node).1 = compute_with_bundle page node b := by
  have hf : fill_node_selectors page node = .ok node := by
    unfold fill_node_selectors
    rw [hb]
  have hc : compute_attributes page node = (compute_with_bundle page node b, node) := by
    unfold compute_attributes
    rw [hi, hb]
  exact ⟨hf, by rw [hc], by rw [hc]⟩



/-- The parent node of the C1 failing input: a non-text node with two text
children, the first explicitly marked `hidden=True`, the second explicitly
marked `hidden=False`. -/
def c1_hidden_child : DomNode :=
  .mk none .text (.unknown "text") "shown" [] (some ⟨some true, none, none⟩)
    ComputedDomAttributes.default

def c1_unhidden_child : DomNode :=
  .mk none .text (.unknown "text") "x" [] (some ⟨some false, none, none⟩)
    ComputedDomAttributes.default

def c1_parent : DomNode :=
  .mk none .other (.unknown "group") "" [c1_hidden_child, c1_unhidden_child]
    none ComputedDomAttributes.default

/-- C1: the claim says `inner_text` excludes a child exactly when it is
explicitly marked `hidden=true`, not-visible or not-enabled, and the code's
own comment agrees ("inner text is not allowed to be hidden"), but the
implementation tests `hidden is not None and not hidden`: on a parent whose
first child is explicitly `hidden=True` (text "shown") and whose second
child is explicitly `hidden=False` (text "x"), the aggregate is "shown" —
the explicitly hidden child is included and the explicitly un-hidden child
is excluded, the exact opposite of the claim for both children. -/
theorem c1_inner_text_hidden_polarity :
    inner_text c1_parent = "shown"
    ∧ c1_hidden_child.attributes = some ⟨some true, none, none⟩
    ∧ c1_unhidden_child.attributes = some ⟨some false, none, none⟩
    ∧ inner_text c1_hidden_child = "shown"
    ∧ inner_text c1_unhidden_child = "x" := by
  refine ⟨?_, rfl, rfl, rfl, rfl⟩
  rfl

/-- An interaction node with an id and one (non-empty) child, for C5. -/
def c5_child : DomNode :=
  .mk none .text (.unknown "text") "t" [] none ComputedDomAttributes.default

def c5_node : DomNode :=
  .mk (some "a") .interaction (.unknown "button") "Submit" [c5_child] none
    ComputedDomAttributes.default

/-- C5 counterexample: the claim says coercion succeeds only when the
children list is empty, yet `to_interaction_node` on an interaction node
with an id and one child succeeds — the implementation always passes an
empty children list to the `InteractionDomNode` constructor, discarding the
real children instead of rejecting them. -/
theorem c5_to_interaction_node_nonempty_children_ok :
    c5_node.children.length = 1
    ∧ exceptIsOk c5_node.to_interaction_node = true := by
  exact ⟨rfl, rfl⟩

/-- C5 amended: coercion to an interaction node succeeds exactly when the
node's type is INTERACTION and its id is present; the children are
discarded (replaced by the empty list), not checked. -/
theorem to_interaction_node_ok_iff (n : DomNode) :
    exceptIsOk n.to_interaction_node
      = (decide (n.type = NodeType.interaction) && n.id.isSome) := by
  rcases n with ⟨i, t, r, x, cs, a, c⟩
  simp only [DomNode.to_interaction_node, mkInteractionDomNode, DomNode.type,
    DomNode.id, DomNode.role, DomNode.text, DomNode.attributes,
    DomNode.computed_attributes]
  cases t <;> cases i <;> simp [exceptIsOk]

/-- A one-node tree whose role is the unknown (plain string) role "foo". -/
def c8_node : DomNode :=
  .mk (some "a") .other (.unknown "foo") "" [] none ComputedDomAttributes.default

/-- C8 counterexample: the claim says `subtree_without(roles)` removes every
node whose role is in `roles` and raises the empty-graph error when every
node's role is in `roles`; but on a one-node tree whose role is the plain
string "foo", `subtree_without {"foo"}` keeps the node and returns the tree
unchanged — the `only_roles` predicate keeps every node whose role is still
a plain string, without comparing it to `roles`. -/
theorem c8_subtree_without_unknown_role_kept :
    subtree_without c8_node ["foo"] = .ok c8_node := by
  rfl

/-- A one-node graph containing only the interaction node "B1", and an
action requesting the absent id "missing", for C2. -/
def c2_root : DomNode :=
  .mk (some "B1") .interaction (.unknown "button") "Submit" [] none
    ComputedDomAttributes.default

def c2_action : ActionModel := ⟨"missing", "", ""⟩

/-- An inert page for the C2 scenario (never consulted on the failure
path). -/
def c2_page : PageModel :=
  ⟨[], fun _ _ => .error (), fun _ _ => false, fun _ _ => none,
    fun _ _ => false, fun _ _ => false, fun _ => none, fun _ => none⟩

/-- C2 counterexample: the claim says an absent action id fails with
NodeNotFound, a failure class distinct from the contract-violation class;
but `forward` on a graph not containing the requested id raises
`InvalidInternalCheckError` — the very class the sources use for contract
violations (spec §7 lists "id mismatch after lookup" under
ContractViolation, and the id-mismatch branch of `forward` raises this same
class).  The absence failure therefore is of the contract-violation class,
not of a distinct NodeNotFound class. -/
theorem c2_absent_id_is_contract_violation_class :
    forward c2_page c2_action c2_root
      = .error (.invalidInternalCheck "Node with id missing not found in graph")
    ∧ NotteError.isContractViolation
        (.invalidInternalCheck "Node with id missing not found in graph") = true :=
  ⟨rfl, rfl⟩

/-- C2 amended: an action id absent from the graph makes `forward` fail
with the contract-violation error class (`InvalidInternalCheckError`)
carrying the "not found in graph" message; the defensive id-disagreement
check would raise the same class with a different message, and is in fact
unreachable because `find` only ever returns a node whose id equals the
searched id.  The two failures are distinguished by message, not by
class. -/
theorem c2_forward_failure_classes (page : PageModel) (a : ActionModel)
    (root : DomNode) :
    (find root a.id = .ok none →
      forward page a root
        = .error (.invalidInternalCheck
            ("Node with id " ++ a.id ++ " not found in graph"))
      ∧ NotteError.isContractViolation
          (.invalidInternalCheck
            ("Node with id " ++ a.id ++ " not found in graph")) = true)
    ∧ (∀ n, find root a.id = .ok (some n) → n.id = a.id) := by
  constructor
  · intro h
    constructor
    · unfold forward
      rw [h]
    · rfl
  · exact fun n => find_id_eq a.id root n

/-- C2 witness: on the concrete one-node graph the id "missing" is absent
and `forward` fails with the contract-violation class carrying the
not-found message. -/
theorem c2_forward_failure_classes_witness :
    find c2_root "missing" = .ok none
    ∧ forward c2_page c2_action c2_root
        = .error (.invalidInternalCheck
            ("Node with id " ++ "missing" ++ " not found in graph")) :=
  ⟨rfl, ((c2_forward_failure_classes c2_page c2_action c2_root).1 rfl).1⟩

/-- The single live frame of the C3 scenario page. -/
def c3_frame : Frame := ⟨"main"⟩

/-- The C3 scenario page: one frame, candidate "s1" matches 0 elements and
every other selector matches exactly 1. -/
def c3_page : PageModel :=
  ⟨[c3_frame], fun s _ => if s = "s1" then .ok 0 else .ok 1,
    fun _ _ => false, fun _ _ => none, fun _ _ => true, fun _ _ => true,
    fun _ => none, fun _ => none⟩

/-- The C3 scenario bundle, whose ordered candidates are
["s1", "s2", "s3"]. -/
def c3_ns : NodeSelectors := ⟨"s2", "s3", "", false, false, [], some "s1"⟩

/-- C3: uniqueness probing walks the fixed candidate order (playwright,
css, xpath) and, within a candidate, the page's frame order, and accepts
the first pair whose match count is exactly 1: `get_valid_locator` equals
the first accepted pair of the ordered enumeration (or the unique-locator
failure when none is accepted), and the (selector, frame) pairs actually
probed are exactly the enumeration cut at the first accepted pair — nothing
after an accepted pair is ever probed.  In particular, on a page whose
3 ordered candidates match 0, 1 and 1 elements, the 2nd candidate is
returned and the 3rd is never probed. -/
theorem c3_first_unique_pair_wins :
    (∀ (page : PageModel) (ns : NodeSelectors),
      get_valid_locator page ns
        = (match (all_pairs page ns.selectors).find? (accepts page) with
           | some p => .ok (p.2, p.1)
           | none => .error (.failedUniqueLocatorResolution ns))
      ∧ probe_trace page ns.selectors
          = take_until_accepted page (all_pairs page ns.selectors))
    ∧ get_valid_locator c3_page c3_ns = .ok (c3_frame, "s2")
    ∧ probe_trace c3_page c3_ns.selectors = [("s1", c3_frame), ("s2", c3_frame)] := by
  refine ⟨fun page ns => ⟨?_, probe_trace_eq_take_until page ns.selectors⟩, rfl, rfl⟩
  rw [get_valid_locator_probe_eq, probe_selectors_eq_find?]
  rcases (all_pairs page ns.selectors).find? (accepts page) with _ | p
  · rfl
  · rfl

/-- A node for the C4 witness whose bundle is cached and whose id is
present. -/
def c4_node : DomNode :=
  .mk (some "B1") .interaction (.unknown "button") "Submit" [] none
    ⟨false, false, false, false, false, none, some c3_ns⟩

/-- C4: for a node whose selector bundle is already cached,
`compute_attributes` fails with a NodeResolutionFailure (the spec's name
for the two resolution-failure error classes) exactly when either no
(selector, frame) pair's match count is exactly 1 — a 0 count, a 2-or-more
count and a raised probing exception are all rejections that move to the
next pair — or a pair is accepted but the element is then not visible or
not enabled. -/
theorem c4_resolution_failure_iff (page : PageModel) (node : DomNode)
    (b : NodeSelectors) (i : String)
    (hb : node.computed_attributes.selectors = some b)
    (hi : node.id = some i) :
    (∃ e, (compute_attributes page node).1 = .error e
      ∧ e.isNodeResolutionFailure = true)
    ↔ ((∀ s ∈ b.selectors, ∀ f ∈ page.frames, page.count s f ≠ Except.ok 1)
       ∨ (∃ fr sel, get_valid_locator page b = .ok (fr, sel)
           ∧ (page.is_visible sel fr = false ∨ page.is_enabled sel fr = false))) := by
  have hca : (compute_attributes page node).1 = compute_with_bundle page node b := by
    unfold compute_attributes
    rw [hi, hb]
  rw [hca]
  unfold compute_with_bundle
  rcases hgl : get_valid_locator page b with e | pair
  · rcases get_valid_locator_cases page b with ⟨fr, sel, hok⟩ | herr
    · rw [hok] at hgl
      cases hgl
    · rw [herr] at hgl
      injection hgl with he
      subst he
      constructor
      · intro _
        left
        exact (get_valid_locator_error_iff page b).1 herr
      · intro _
        exact ⟨.failedUniqueLocatorResolution b, rfl, rfl⟩
  · rcases pair with ⟨fr, sel⟩
    simp only
    rcases hv : page.is_visible sel fr with _ | _
    · constructor
      · intro _
        exact Or.inr ⟨fr, sel, rfl, Or.inl hv⟩
      · intro _
        exact ⟨.failedNodeResolution node.id, by simp, rfl⟩
    · rcases he : page.is_enabled sel fr with _ | _
      · constructor
        · intro _
          exact Or.inr ⟨fr, sel, rfl, Or.inr he⟩
        · intro _
          exact ⟨.failedNodeResolution node.id, by simp, rfl⟩
      · constructor
        · rintro ⟨e, hcontr, _⟩
          simp at hcontr
        · rintro (hall | ⟨fr2, sel2, hok2, hbad⟩)
          · have hacc := get_valid_locator_ok_accepts page b fr sel hgl
            exact absurd hacc.2.2 (hall sel hacc.1 fr hacc.2.1)
          · injection hok2 with hpair
            injection hpair with h1 h2
            subst h1
            subst h2
            rcases hbad with hbad | hbad
            · rw [hv] at hbad
              cases hbad
            · rw [he] at hbad
              cases hbad

/-- C4 witness: on the concrete scenario page every hypothesis holds and
both sides of the equivalence are decided at the accepted pair
(c3_frame, "s2"), whose element is visible and enabled, so there is no
resolution failure. -/
theorem c4_resolution_failure_iff_witness :
    c4_node.computed_attributes.selectors = some c3_ns
    ∧ c4_node.id = some "B1"
    ∧ ((∃ e, (compute_attributes c3_page c4_node).1 = .error e
        ∧ e.isNodeResolutionFailure = true)
      ↔ ((∀ s ∈ c3_ns.selectors, ∀ f ∈ c3_page.frames,
            c3_page.count s f ≠ Except.ok 1)
         ∨ (∃ fr sel, get_valid_locator c3_page c3_ns = .ok (fr, sel)
             ∧ (c3_page.is_visible sel fr = false
                ∨ c3_page.is_enabled sel fr = false)))) :=
  ⟨rfl, rfl, c4_resolution_failure_iff c3_page c4_node c3_ns "B1" rfl rfl⟩

/-- A three-level tree with ids "r", "b", "c" and one id-less node, for the
C6 witness. -/
def c6_tree : DomNode :=
  .mk (some "r") .other (.unknown "group") "" [
    .mk none .other (.unknown "group") "t" [
      .mk (some "b") .interaction (.unknown "button") "B" [] none
        ComputedDomAttributes.default] none ComputedDomAttributes.default,
    .mk (some "c") .text (.unknown "text") "C" [] none
      ComputedDomAttributes.default] none ComputedDomAttributes.default

/-- C6: `subtree_ids` of a node is its own id (when present) followed by
the concatenation of the children's `subtree_ids`; it equals exactly the
list of ids present anywhere in the node's full pre-order traversal — so at
the root it is exactly the set of all present ids of the tree, at any
nesting depth — and it has no duplicates whenever the present ids of the
tree are pairwise distinct. -/
theorem c6_subtree_ids_is_all_present_ids (n : DomNode) :
    subtree_ids n = n.id.toList ++ subtree_ids_list n.children
    ∧ subtree_ids n = (n.flatten false).filterMap DomNode.id
    ∧ (((n.flatten false).filterMap DomNode.id).Nodup → (subtree_ids n).Nodup) := by
  refine ⟨?_, subtree_ids_eq_flatten_ids n, ?_⟩
  · rcases n with ⟨i, t, r, x, cs, a, c⟩
    rfl
  · intro h
    rw [subtree_ids_eq_flatten_ids n]
    exact h

/-- C6 witness: on the concrete nested tree the present ids are
["r", "b", "c"], pairwise distinct, and `subtree_ids` is duplicate-free. -/
theorem c6_subtree_ids_is_all_present_ids_witness :
    subtree_ids c6_tree = ["r", "b", "c"]
    ∧ ((c6_tree.flatten false).filterMap DomNode.id).Nodup
    ∧ (subtree_ids c6_tree).Nodup :=
  ⟨rfl, by decide, (c6_subtree_ids_is_all_present_ids c6_tree).2.2 (by decide)⟩

/-- C10: every selector bundle yields a non-empty candidate list (css and
xpath are always present), so `get_valid_locator` always takes the probing
path: its result is the probe outcome, never the "No selectors found"
contract-violation branch. -/
theorem c10_selectors_nonempty (s : NodeSelectors) (page : PageModel) :
    0 < s.selectors.length
    ∧ get_valid_locator page s
        = (match probe_selectors page s.selectors with
           | some fs => .ok fs
           | none => .error (.failedUniqueLocatorResolution s)) := by
  refine ⟨selectors_length_pos s, ?_⟩
  unfold get_valid_locator
  have h := selectors_length_pos s
  simp only [Nat.pos_iff_ne_zero] at h
  simp [h]

/-- C9 witness: on the concrete cached node, filling is the identity and
resolution reads the cached bundle and returns the node unchanged. -/
theorem c9_cached_selectors_read_only_witness :
    c4_node.computed_attributes.selectors = some c3_ns
    ∧ c4_node.id = some "B1"
    ∧ fill_node_selectors c3_page c4_node = .ok c4_node
    ∧ (compute_attributes c3_page c4_node).2 = c4_node
    ∧ (compute_attributes c3_page c4_node).1
        = compute_with_bundle c3_page c4_node c3_ns := by
  have h := c9_cached_selectors_read_only c3_page c4_node c3_ns "B1" (by rfl) (by rfl)
  exact ⟨by rfl, by rfl, h.1, h.2.1, h.2.2⟩

end Notte
